import Mathlib

/-!
Verification development for the llm-warehouse observation layer.

The TypeScript source is shallowly embedded: JavaScript runtime values are
modelled by the inductive type `Value`, fallible JavaScript expressions by
`Except Value`, and the side effects of each function (records handed to the
transport, network calls attempted, errors thrown to the caller) are returned
explicitly.  Module-level mutable state (the patch flags of `patch.ts` and
`observify.ts`) is modelled by an explicit state type and step functions.
-/

namespace LLMWarehouse

/- A JavaScript runtime value, as far as the observation layer inspects it.
`vfunc` is an opaque function identified by an id; its behaviour when called
is supplied by an oracle `Nat → Except Value Value` (a call either returns a
value or throws a value).  `vbigint` models a value that JSON cannot
represent (`JSON.stringify` throws on it).  Mutual lists are used instead of
`List` so that all recursions below are structural and kernel-reducible. -/
mutual
inductive Value where
  | vundefined : Value
  | vnull : Value
  | vbool (b : Bool) : Value
  | vnum (n : Int) : Value
  | vbigint (n : Int) : Value
  | vstr (s : String) : Value
  | varr (elems : ValueList) : Value
  | vobj (fields : FieldList) : Value
  | vfunc (fid : Nat) : Value

inductive ValueList where
  | nil : ValueList
  | cons (hd : Value) (tl : ValueList) : ValueList

inductive FieldList where
  | nil : FieldList
  | cons (key : String) (val : Value) (tl : FieldList) : FieldList
end

/-- JavaScript truthiness of a value (`NaN` is not modelled). -/
def truthy : Value → Bool
  | .vundefined => false
  | .vnull => false
  | .vbool b => b
  | .vnum n => n != 0
  | .vbigint n => n != 0
  | .vstr s => s != ""
  | .varr _ => true
  | .vobj _ => true
  | .vfunc _ => true

/-- The guard `typeof v === "object" && v` used by `serialize` and by the
Vercel wrapper (`null` has typeof object but is falsy, so it is excluded). -/
def isObjLike : Value → Bool
  | .varr _ => true
  | .vobj _ => true
  | _ => false

/-- First binding of `key` in a field list (JavaScript objects have unique
keys; constructed objects below keep that invariant). -/
def lookupField : FieldList → String → Option Value
  | .nil, _ => none
  | .cons k v tl, key => if k = key then some v else lookupField tl key

/-- Property access `v.key` for the keys the source reads: `undefined` on
primitives and on objects lacking the key. -/
def getField (v : Value) (key : String) : Value :=
  match v with
  | .vobj fs => (lookupField fs key).getD .vundefined
  | _ => .vundefined

/-- Optional chaining `v?.key`: `undefined` when `v` is nullish, otherwise
plain property access. -/
def optChain (v : Value) (key : String) : Value :=
  match v with
  | .vundefined => .vundefined
  | .vnull => .vundefined
  | _ => getField v key

/-- Keys of a field list, in order. -/
def keys : FieldList → List String
  | .nil => []
  | .cons k _ tl => k :: keys tl

/-- Remove every binding of `key`. -/
def eraseField : FieldList → String → FieldList
  | .nil, _ => .nil
  | .cons k v tl, key => if k = key then eraseField tl key else .cons k v (eraseField tl key)

/-- Append one binding at the end. -/
def appendField : FieldList → String → Value → FieldList
  | .nil, key, v => .cons key v .nil
  | .cons k w tl, key, v => .cons k w (appendField tl key v)

/-- Assignment `obj[key] = v` on an object under construction: later bindings override
earlier ones (field order is not load-bearing for any claim). -/
def objSet (fs : FieldList) (key : String) (v : Value) : FieldList :=
  appendField (eraseField fs key) key v

/-- Apply a sequence of assignments left to right (the object-spread
`{ ... , ...params }` applies the fields of `params` last, in order). -/
def objSetAll (acc : FieldList) : FieldList → FieldList
  | .nil => acc
  | .cons k v tl => objSetAll (objSet acc k v) tl

/-- Own enumerable fields contributed by `...v` in an object literal:
objects contribute their fields, arrays and strings their indexed elements,
primitives and functions nothing. -/
def enumElems (i : Nat) : ValueList → FieldList
  | .nil => .nil
  | .cons v tl => .cons (Nat.repr i) v (enumElems (i + 1) tl)

def enumChars (i : Nat) : List Char → FieldList
  | [] => .nil
  | c :: rest => .cons (Nat.repr i) (.vstr (String.singleton c)) (enumChars (i + 1) rest)

def spreadFields : Value → FieldList
  | .vobj fs => fs
  | .varr es => enumElems 0 es
  | .vstr s => enumChars 0 s.data
  | _ => .nil

/- `String(v)`: the JavaScript string conversion, on this value universe.
Arrays stringify as their elements joined by commas with nullish elements
blank; plain objects as the fixed tag; an opaque function as a fixed tag
(the source never relies on function source text). -/
mutual
def jsToString : Value → String
  | .vundefined => "undefined"
  | .vnull => "null"
  | .vbool b => cond b "true" "false"
  | .vnum n => toString n
  | .vbigint n => toString n
  | .vstr s => s
  | .varr es => arrJoin es
  | .vobj _ => "[object Object]"
  | .vfunc _ => "function"

def arrJoin : ValueList → String
  | .nil => ""
  | .cons v tl =>
    let s := match v with
      | .vundefined => ""
      | .vnull => ""
      | w => jsToString w
    match tl with
    | .nil => s
    | .cons w tl2 => s ++ "," ++ arrJoin (.cons w tl2)
end

/-- Is the value `undefined`? -/
def isUndefined : Value → Bool
  | .vundefined => true
  | _ => false

/-- Is the value a function? (`typeof v === "function"`). -/
def isFunc : Value → Bool
  | .vfunc _ => true
  | _ => false

/- `JSON.parse(JSON.stringify(v))`: the generic deep structural copy.
`JSON.stringify` yields no string for a top-level `undefined` or function
(so the subsequent `JSON.parse` throws), throws on a value JSON cannot
represent (`vbigint`, the stand-in for e.g. BigInt; reference cycles are not
representable in this inductive universe), drops `undefined`- and
function-valued object fields, and writes `null` for such array elements. -/
mutual
def jsonRT : Value → Except Value Value
  | .vundefined => .error (.vstr "SyntaxError")
  | .vfunc _ => .error (.vstr "SyntaxError")
  | .vbigint _ => .error (.vstr "TypeError")
  | .vnull => .ok .vnull
  | .vbool b => .ok (.vbool b)
  | .vnum n => .ok (.vnum n)
  | .vstr s => .ok (.vstr s)
  | .varr es =>
    match jsonArrElems es with
    | .ok es2 => .ok (.varr es2)
    | .error e => .error e
  | .vobj fs =>
    match jsonObjFields fs with
    | .ok fs2 => .ok (.vobj fs2)
    | .error e => .error e

def jsonArrElems : ValueList → Except Value ValueList
  | .nil => .ok .nil
  | .cons v tl =>
    match (if isUndefined v || isFunc v then .ok .vnull else jsonRT v : Except Value Value) with
    | .error e => .error e
    | .ok v2 =>
      match jsonArrElems tl with
      | .error e => .error e
      | .ok tl2 => .ok (.cons v2 tl2)

def jsonObjFields : FieldList → Except Value FieldList
  | .nil => .ok .nil
  | .cons k v tl =>
    if isUndefined v || isFunc v then jsonObjFields tl
    else
      match jsonRT v with
      | .error e => .error e
      | .ok v2 =>
        match jsonObjFields tl with
        | .error e => .error e
        | .ok tl2 => .ok (.cons k v2 tl2)
end

/-- Calling a member value: only an opaque function can be called; the
oracle decides whether the call returns or throws. -/
def callVal (oracle : Nat → Except Value Value) (f : Value) : Except Value Value :=
  match f with
  | .vfunc fid => oracle fid
  | _ => .error (.vstr "TypeError")

/-- The body of `serialize` up to its `catch`: the first applicable
conversion is attempted — `v.toJSON()` when the guarded value has a
function-valued `toJSON` member, else `v.serialize()`, else the JSON
round-trip — and any of them may throw.  `oracle` gives the behaviour of
opaque member functions. -/
def serializeExc (oracle : Nat → Except Value Value) (v : Value) : Except Value Value :=
  if isObjLike v then
    if isFunc (getField v "toJSON") then callVal oracle (getField v "toJSON")
    else if isFunc (getField v "serialize") then callVal oracle (getField v "serialize")
    else jsonRT v
  else jsonRT v

/-- Function `serialize` from `patch.ts`: the catch-all turns any failure of the
attempted conversion into the string representation of the input. -/
def serialize (oracle : Nat → Except Value Value) (v : Value) : Value :=
  match serializeExc oracle v with
  | .ok r => r
  | .error _ => .vstr (jsToString v)

/-- Structure `LLMCallData` from `types.ts`.  Optional fields absent on a fresh record
are `none`; `latency_s` is the JavaScript number `(Date.now() - startTime) / 1000`,
modelled as a rational. -/
structure LLMCallData where
  sdk_method : String
  request_args : ValueList := .nil
  request_kwargs : Value
  response : Option Value := none
  latency_s : Option ℚ := none
  error : Option String := none
  request_id : Option Value := none
  timestamp : Option String := none
  source : Option String := none
  env : Option Value := none

/-- Latency `(Date.now() - startTime) / 1000`, with the two clock readings passed in
explicitly (milliseconds since the epoch). -/
def latSec (startTime endTime : Nat) : ℚ :=
  ((endTime : ℚ) - (startTime : ℚ)) / 1000

/-- Recorded error string: the source coalesces `error?.toString()` with the
fixed fallback string.  A nullish thrown value has no `toString`, and an
empty string representation is falsy, so both coalesce to the fallback. -/
def recordedError (e : Value) : String :=
  match e with
  | .vundefined => "Unknown error"
  | .vnull => "Unknown error"
  | _ => if jsToString e = "" then "Unknown error" else jsToString e

/-- Result of one call through a wrapped method: what the wrapped call
returns to (or throws at) the caller, and the records handed to the
transport `send`, in order. -/
structure WrapResult where
  outcome : Except Value Value
  sent : List LLMCallData

/-- One invocation of the function returned by `wrapOpenAIMethod`
(`patch.ts`).  `arg0` is `args[0]`, `callResult` the settlement of
`originalMethod.apply(this, args)`, and `startTime`/`endTime` the two
`Date.now()` readings. -/
def wrapOpenAIMethod (methodPath : String) (arg0 : Value)
    (callResult : Except Value Value) (oracle : Nat → Except Value Value)
    (startTime endTime : Nat) : WrapResult :=
  let record : LLMCallData :=
    { sdk_method := methodPath
      request_kwargs := if truthy arg0 then arg0 else .vobj .nil }
  match callResult with
  | .ok result =>
    let record := { record with latency_s := some (latSec startTime endTime) }
    if truthy (optChain arg0 "stream") then
      { outcome := .ok result
        sent := [{ record with response := some (.vstr "streaming_response") }] }
    else
      { outcome := .ok result
        sent := [{ record with
                    response := some (serialize oracle result)
                    request_id := some (optChain result "id") }] }
  | .error e =>
    { outcome := .error e
      sent := [{ record with
                  latency_s := some (latSec startTime endTime)
                  error := some (recordedError e) }] }

/-- The `request.kwargs` object literal built by `wrapVercelAIMethod`: seven
named fields followed by the spread `...params`, applied last so that the
raw parameter fields override the earlier summarised ones. -/
def vercelKwargsFields (oracle : Nat → Except Value Value) (params : Value) : FieldList :=
  let base : FieldList :=
    .cons "model" (if truthy (getField params "model")
                   then serialize oracle (getField params "model") else .vundefined)
    (.cons "prompt" (getField params "prompt")
    (.cons "messages" (getField params "messages")
    (.cons "schema" (if truthy (getField params "schema")
                     then .vstr "[schema object]" else .vundefined)
    (.cons "tools" (if truthy (getField params "tools")
                    then .vstr "[tools object]" else .vundefined)
    (.cons "maxTokens" (getField params "maxTokens")
    (.cons "temperature" (getField params "temperature") .nil))))))
  objSetAll base (spreadFields params)

/-- The `responseData` object picked out of a non-streaming Vercel result:
`text`, `object` (serialised), `usage`, `finishReason`, each only when
truthy on the result. -/
def vercelResponseData (oracle : Nat → Except Value Value) (result : Value) : Value :=
  let fs0 : FieldList := .nil
  let fs1 := if truthy (getField result "text")
             then appendField fs0 "text" (getField result "text") else fs0
  let fs2 := if truthy (getField result "object")
             then appendField fs1 "object" (serialize oracle (getField result "object")) else fs1
  let fs3 := if truthy (getField result "usage")
             then appendField fs2 "usage" (getField result "usage") else fs2
  let fs4 := if truthy (getField result "finishReason")
             then appendField fs3 "finishReason" (getField result "finishReason") else fs3
  .vobj fs4

/-- One invocation of the function returned by `wrapVercelAIMethod`. -/
def wrapVercelAIMethod (methodPath : String) (arg0 : Value)
    (callResult : Except Value Value) (oracle : Nat → Except Value Value)
    (startTime endTime : Nat) : WrapResult :=
  let params := if truthy arg0 then arg0 else .vobj .nil
  let record : LLMCallData :=
    { sdk_method := methodPath
      request_kwargs := .vobj (vercelKwargsFields oracle params) }
  match callResult with
  | .ok result =>
    let record := { record with latency_s := some (latSec startTime endTime) }
    if isObjLike result then
      if truthy (getField result "textStream") || truthy (getField result "objectStream") then
        { outcome := .ok result
          sent := [{ record with response := some (.vstr "vercel_ai_streaming_response") }] }
      else
        { outcome := .ok result
          sent := [{ record with response := some (vercelResponseData oracle result) }] }
    else
      { outcome := .ok result
        sent := [{ record with response := some (serialize oracle result) }] }
  | .error e =>
    { outcome := .error e
      sent := [{ record with
                  latency_s := some (latSec startTime endTime)
                  error := some (recordedError e) }] }

/-- Transport configuration as read from the environment: a variable is
either unset (`none`) or a string; JavaScript truthiness makes the empty
string count as unset. -/
structure TransportConfig where
  warehouseUrl : Option String
  warehouseKey : Option String
  debug : Bool

/-- Negation of an environment variable is false exactly when it is set to a non-empty
string. -/
def optStrTruthy : Option String → Bool
  | none => false
  | some s => s != ""

/-- JavaScript `endsWith`. -/
def jsEndsWith (s suffix : String) : Bool :=
  suffix.data.isSuffixOf s.data

/-- Strip at most one trailing slash, as the regex replace in `send` does. -/
def stripTrailingSlash (s : String) : String :=
  if jsEndsWith s "/" then s.dropRight 1 else s

/-- Endpoint resolution shared by `transport.send` and `query.getFlaskLogs`:
use the URL as-is when it already ends with the collection path, otherwise
strip one trailing slash and append the path. -/
def resolveWarehouseUrl (u : String) : String :=
  if jsEndsWith u "/llm-logs" then u else stripTrailingSlash u ++ "/llm-logs"

/-- The settlement of the single `fetch` of `send`: either the promise
rejects with a value, or a response arrives with an `ok` flag, a status and
a body whose `text()` reading may itself reject. -/
inductive FetchOutcome where
  | reject (e : Value)
  | resp (ok : Bool) (status : Nat) (textResult : Except Value String)

/-- Observable result of one `send` call: the record after default metadata
was filled in, the URL fetched (`none` when the network layer was never
invoked), and the value `send` itself rejects with — always `none`, which is
the content of claim C2. -/
structure SendOutcome where
  record : LLMCallData
  fetched : Option String
  rejected : Option Value

/-- The three `record.x = record.x || default` assignments at the top of
`send`. -/
def applyDefaults (record : LLMCallData) (nowIso : String) (envSnap : Value) : LLMCallData :=
  { record with
    timestamp := if optStrTruthy record.timestamp then record.timestamp else some nowIso
    source := if optStrTruthy record.source then record.source else some "typescript-openai"
    env := if (match record.env with | some v => truthy v | none => false)
           then record.env else some envSnap }

/-- The `try` block of `send` after configuration is known to be present:
returns the URL handed to `fetch` and the error the block throws, if any
(a rejected fetch, or a rejected `text()` read on the debug path of a
non-2xx response). -/
def sendTry (url : String) (debug : Bool) (outcome : FetchOutcome) : Option String × Option Value :=
  let endpoint := resolveWarehouseUrl url
  match outcome with
  | .reject e => (some endpoint, some e)
  | .resp ok _status textResult =>
    if !ok && debug then
      match textResult with
      | .error e => (some endpoint, some e)
      | .ok _ => (some endpoint, none)
    else (some endpoint, none)

/-- Function `send` from `transport.ts`: fill defaults, silently skip when URL or key
is missing, otherwise run the `try` block and swallow whatever it throws. -/
def send (cfg : TransportConfig) (outcome : FetchOutcome) (nowIso : String)
    (envSnap : Value) (record : LLMCallData) : SendOutcome :=
  let record := applyDefaults record nowIso envSnap
  if optStrTruthy cfg.warehouseUrl && optStrTruthy cfg.warehouseKey then
    let tried := sendTry (cfg.warehouseUrl.getD "") cfg.debug outcome
    { record := record, fetched := tried.1, rejected := none }
  else
    { record := record, fetched := none, rejected := none }

/-- Module-level mutable state of `patch.ts` (`_patchApplied`) and
`observify.ts` (`_isPatched`, `_isEnabled`), together with the two
environment variables `patch()` writes.  `installRuns` is ghost
instrumentation counting how many times the body of the `try` block of
`installPatch` — the constructor-replacement installation logic — was
entered. -/
structure ObsState where
  patchApplied : Bool
  isPatchedFlag : Bool
  isEnabledFlag : Bool
  envEnabled : Option String
  envDebug : Option String
  installRuns : Nat

/-- Process start: both flags false; the environment variables hold whatever
the process was started with. -/
def initState (envEnabled envDebug : Option String) : ObsState :=
  { patchApplied := false, isPatchedFlag := false, isEnabledFlag := false
    envEnabled := envEnabled, envDebug := envDebug, installRuns := 0 }

/-- One call to `installPatch` (`patch.ts`).  `installOk` says whether the
physical installation body runs to completion or throws partway; either
way the function itself returns normally (its `catch` only warns), and
`_patchApplied` is set only on completion. -/
def installPatchStep (installOk : Bool) (s : ObsState) : ObsState :=
  if s.patchApplied then s
  else if installOk then { s with installRuns := s.installRuns + 1, patchApplied := true }
  else { s with installRuns := s.installRuns + 1 }

/-- One call to `patch(options)` (`observify.ts`).  When enabling and not
yet flagged, it calls `installPatch()` — which never throws — and then
unconditionally sets `_isPatched = true`. -/
def patchStep (enabled debug installOk : Bool) (s : ObsState) : ObsState :=
  let s1 := { s with isEnabledFlag := enabled }
  if enabled then
    let s2 := { s1 with envEnabled := some "1"
                        envDebug := if debug then some "1" else none }
    if s2.isPatchedFlag then s2
    else { installPatchStep installOk s2 with isPatchedFlag := true }
  else { s1 with envEnabled := some "0" }

/-- The two entry points that touch the patch state. -/
inductive PatchOp where
  | patchOp (enabled debug installOk : Bool)
  | installOp (installOk : Bool)

def opInstallOk : PatchOp → Bool
  | .patchOp _ _ ok => ok
  | .installOp ok => ok

def stepOp (s : ObsState) : PatchOp → ObsState
  | .patchOp e d ok => patchStep e d ok s
  | .installOp ok => installPatchStep ok s

def runOps (s : ObsState) : List PatchOp → ObsState
  | [] => s
  | op :: rest => runOps (stepOp s op) rest

/-- Function `isPatched()` from `observify.ts`. -/
def isPatchedFn (s : ObsState) : Bool := s.isPatchedFlag

/-- Truthiness of an environment flag: the source negates membership of the
value (defaulting to the string 0) in a fixed list of disabled spellings. -/
def envFlagTruthy (v : Option String) : Bool :=
  !(["", "0", "false", "False", "no", "off"].contains (v.getD "0"))

/-- The object returned by `status()`. -/
structure StatusSnapshot where
  enabled : Bool
  patched : Bool
  debug : Bool
  warehouseUrl : Option String
  apiKeyMasked : Option String

/-- Function `status()` from `observify.ts`; the API key is only ever reported as a
fixed placeholder. -/
def statusFn (s : ObsState) (envUrl envKey : Option String) : StatusSnapshot :=
  { enabled := s.isEnabledFlag || envFlagTruthy s.envEnabled
    patched := isPatchedFn s
    debug := envFlagTruthy s.envDebug
    warehouseUrl := envUrl
    apiKeyMasked := if optStrTruthy envKey then some "***configured***" else none }

/-! ### Helper lemmas -/

lemma jsEndsWith_append (x s : String) : jsEndsWith (x ++ s) s = true := by
  unfold jsEndsWith
  rw [String.data_append]
  exact List.isSuffixOf_iff_suffix.mpr (List.suffix_append x.data s.data)

lemma resolveWarehouseUrl_endsWith (u : String) :
    jsEndsWith (resolveWarehouseUrl u) "/llm-logs" = true := by
  unfold resolveWarehouseUrl
  by_cases h : jsEndsWith u "/llm-logs" = true
  · simp [h]
  · simp [h, jsEndsWith_append]

lemma resolveWarehouseUrl_fixed (u : String) (h : jsEndsWith u "/llm-logs" = true) :
    resolveWarehouseUrl u = u := by
  unfold resolveWarehouseUrl
  simp [h]

/-- Fixed call-behaviour oracle used by concrete witnesses: every opaque
function returns `null`. -/
def oracle0 : Nat → Except Value Value := fun _ => .ok .vnull

/-! ### Claim theorems -/

/-- C6: endpoint resolution uses a URL already ending in `/llm-logs` as-is,
is idempotent, and maps both `http://h/llm-logs` and `http://h/` to
`http://h/llm-logs`, so a correct URL is never double-appended. -/
theorem resolveWarehouseUrl_idempotent :
    (∀ u, jsEndsWith u "/llm-logs" = true → resolveWarehouseUrl u = u)
    ∧ (∀ u, resolveWarehouseUrl (resolveWarehouseUrl u) = resolveWarehouseUrl u)
    ∧ resolveWarehouseUrl "http://h/llm-logs" = "http://h/llm-logs"
    ∧ resolveWarehouseUrl "http://h/" = "http://h/llm-logs" := by
  refine ⟨fun u h => resolveWarehouseUrl_fixed u h, fun u => ?_, by decide, by decide⟩
  exact resolveWarehouseUrl_fixed _ (resolveWarehouseUrl_endsWith u)

/-- C6 witness: the as-is clause at a concrete already-resolved URL. -/
theorem resolveWarehouseUrl_idempotent_witness :
    resolveWarehouseUrl "http://h/llm-logs" = "http://h/llm-logs" :=
  resolveWarehouseUrl_idempotent.1 "http://h/llm-logs" (by decide)

/-- C2: `send` resolves for every configuration, record and network
interaction outcome — a rejected fetch, a non-2xx response (even one whose
body read itself rejects), or a success; it never rejects, so the wrapper
awaiting it cannot pick up a rejection from the logging side channel. -/
theorem send_always_resolves (cfg : TransportConfig) (outcome : FetchOutcome)
    (nowIso : String) (envSnap : Value) (record : LLMCallData) :
    (send cfg outcome nowIso envSnap record).rejected = none := by
  unfold send
  split <;> rfl

/-- C8: with no warehouse URL or no API key configured (unset or empty),
`send` never invokes the network layer and surfaces no error. -/
theorem send_skips_network_without_config (cfg : TransportConfig)
    (outcome : FetchOutcome) (nowIso : String) (envSnap : Value)
    (record : LLMCallData)
    (h : optStrTruthy cfg.warehouseUrl = false ∨ optStrTruthy cfg.warehouseKey = false) :
    (send cfg outcome nowIso envSnap record).fetched = none
    ∧ (send cfg outcome nowIso envSnap record).rejected = none := by
  unfold send
  rcases h with h | h <;> simp [h]

/-- C8 witness: a concrete unconfigured transport performs no fetch. -/
theorem send_skips_network_without_config_witness :
    (send { warehouseUrl := none, warehouseKey := some "k", debug := false }
        (.resp true 200 (.ok "")) "t" .vnull
        { sdk_method := "m", request_kwargs := .vobj .nil }).fetched = none
    ∧ (send { warehouseUrl := none, warehouseKey := some "k", debug := false }
        (.resp true 200 (.ok "")) "t" .vnull
        { sdk_method := "m", request_kwargs := .vobj .nil }).rejected = none :=
  send_skips_network_without_config _ _ _ _ _ (Or.inl (by decide))

lemma installPatchStep_patchApplied (ok : Bool) (s : ObsState) :
    (installPatchStep ok s).patchApplied = (s.patchApplied || ok) := by
  unfold installPatchStep
  by_cases h : s.patchApplied = true
  · simp [h]
  · simp only [Bool.not_eq_true] at h
    by_cases hok : ok = true <;> simp [h, hok]

lemma installPatchStep_isPatchedFlag (ok : Bool) (s : ObsState) :
    (installPatchStep ok s).isPatchedFlag = s.isPatchedFlag := by
  unfold installPatchStep
  by_cases h : s.patchApplied = true
  · simp [h]
  · simp only [Bool.not_eq_true] at h
    by_cases hok : ok = true <;> simp [h, hok]

lemma installPatchStep_installRuns (ok : Bool) (s : ObsState) :
    (installPatchStep ok s).installRuns
      = if s.patchApplied then s.installRuns else s.installRuns + 1 := by
  unfold installPatchStep
  by_cases h : s.patchApplied = true
  · simp [h]
  · simp only [Bool.not_eq_true] at h
    by_cases hok : ok = true <;> simp [h, hok]

lemma patchStep_isPatchedFlag (e d ok : Bool) (s : ObsState) :
    (patchStep e d ok s).isPatchedFlag = (s.isPatchedFlag || e) := by
  unfold patchStep
  by_cases he : e = true
  · by_cases hf : s.isPatchedFlag = true <;> simp [he, hf]
  · simp only [Bool.not_eq_true] at he
    simp [he]

lemma patchStep_patchApplied (e d ok : Bool) (s : ObsState) :
    (patchStep e d ok s).patchApplied
      = if e && !s.isPatchedFlag then (s.patchApplied || ok) else s.patchApplied := by
  unfold patchStep
  by_cases he : e = true
  · by_cases hf : s.isPatchedFlag = true
    · simp [he, hf]
    · simp only [Bool.not_eq_true] at hf
      simp [he, hf, installPatchStep_patchApplied]
  · simp only [Bool.not_eq_true] at he
    simp [he]

lemma patchStep_installRuns (e d ok : Bool) (s : ObsState) :
    (patchStep e d ok s).installRuns
      = if e && !s.isPatchedFlag && !s.patchApplied
        then s.installRuns + 1 else s.installRuns := by
  unfold patchStep
  by_cases he : e = true
  · by_cases hf : s.isPatchedFlag = true
    · simp [he, hf]
    · simp only [Bool.not_eq_true] at hf
      by_cases ha : s.patchApplied = true
      · simp [he, hf, ha, installPatchStep_installRuns]
      · simp only [Bool.not_eq_true] at ha
        simp [he, hf, ha, installPatchStep_installRuns]
  · simp only [Bool.not_eq_true] at he
    simp [he]

/-- C4 counterexample: starting from a fresh process, one `patch({enabled:true})`
call whose physical installation throws inside `installPatch` still leaves
`isPatched()` (and hence `status().patched`) reporting `true`, while the
patch-module flag `_patchApplied` is still `false` — so the flag reported by
`isPatched()` is not "set to true only by a successful physical
installation". -/
theorem isPatched_true_after_failed_install :
    isPatchedFn (patchStep true false false (initState none none)) = true
    ∧ (patchStep true false false (initState none none)).patchApplied = false :=
  ⟨rfl, rfl⟩

/-- C4 amended: both flags start false and are never reset; every enabling
`patch()` call sets the flag reported by `isPatched()`/`status().patched`
regardless of whether the physical installation succeeded (because
`installPatch` swallows its own failures), a direct `installPatch` call
never changes that flag, and the patch-module flag `_patchApplied` becomes
true only through an operation whose physical installation succeeded. -/
theorem patch_flags_amended :
    (∀ e d, isPatchedFn (initState e d) = false ∧ (initState e d).patchApplied = false)
    ∧ (∀ s d ok, isPatchedFn (patchStep true d ok s) = true)
    ∧ (∀ s ok, isPatchedFn (installPatchStep ok s) = isPatchedFn s)
    ∧ (∀ s op, isPatchedFn s = true → isPatchedFn (stepOp s op) = true)
    ∧ (∀ s op, s.patchApplied = true → (stepOp s op).patchApplied = true)
    ∧ (∀ s op, (stepOp s op).patchApplied = true →
        s.patchApplied = true ∨ opInstallOk op = true)
    ∧ (∀ s eu ek, (statusFn s eu ek).patched = isPatchedFn s) := by
  refine ⟨fun e d => ⟨rfl, rfl⟩, ?_, ?_, ?_, ?_, ?_, fun s eu ek => rfl⟩
  · intro s d ok
    unfold isPatchedFn
    simp [patchStep_isPatchedFlag]
  · intro s ok
    unfold isPatchedFn
    exact installPatchStep_isPatchedFlag ok s
  · intro s op h
    unfold isPatchedFn at h ⊢
    cases op with
    | patchOp e d ok => simp [stepOp, patchStep_isPatchedFlag, h]
    | installOp ok => simp [stepOp, installPatchStep_isPatchedFlag, h]
  · intro s op h
    cases op with
    | patchOp e d ok =>
      simp only [stepOp, patchStep_patchApplied, h]
      split <;> simp
    | installOp ok =>
      simp [stepOp, installPatchStep_patchApplied, h]
  · intro s op h
    by_cases happ : s.patchApplied = true
    · exact Or.inl happ
    · right
      simp only [Bool.not_eq_true] at happ
      cases op with
      | patchOp e d ok =>
        simp only [stepOp, patchStep_patchApplied, happ] at h
        simp only [opInstallOk]
        split at h
        · simpa using h
        · simp at h
      | installOp ok =>
        simp only [stepOp, installPatchStep_patchApplied, happ] at h
        simpa using h

/-- C4 witness: the never-reset clause applied at a concrete state in which
the flag is already set, stepped by a failing direct install. -/
theorem patch_flags_amended_witness :
    isPatchedFn (stepOp (patchStep true false true (initState none none))
      (.installOp false)) = true :=
  patch_flags_amended.2.2.2.1 (patchStep true false true (initState none none))
    (.installOp false) rfl

/-- C5 counterexample: two direct `installPatch` calls whose physical
installation both throw enter the constructor-replacement installation
logic twice in one process — the idempotency flag is only set on success,
so after a failure the second invocation is a retry, not a silent no-op. -/
theorem installPatch_retries_after_failure :
    (runOps (initState none none) [.installOp false, .installOp false]).installRuns = 2 :=
  rfl

/-- C5 amended: enabling twice through `patch()` runs the installation
logic at most once (the second enabled call never re-enters it), any
`installPatch` call after a successful installation is a no-op on the
state, a successful attempt sets the idempotency flag, and the installed
state stays queryable through `status()`; only a failed direct
`installPatch` attempt is retried by a later call. -/
theorem install_idempotency_amended :
    (∀ s d1 d2 ok1 ok2,
      (patchStep true d2 ok2 (patchStep true d1 ok1 s)).installRuns
        = (patchStep true d1 ok1 s).installRuns)
    ∧ (∀ s ok, s.patchApplied = true → installPatchStep ok s = s)
    ∧ (∀ s, (installPatchStep true s).patchApplied = true)
    ∧ (∀ s ok2, installPatchStep ok2 (installPatchStep true s) = installPatchStep true s)
    ∧ (∀ s eu ek, (statusFn s eu ek).patched = isPatchedFn s) := by
  have hset : ∀ s, (installPatchStep true s).patchApplied = true := by
    intro s
    simp [installPatchStep_patchApplied]
  have hnoop : ∀ s ok, s.patchApplied = true → installPatchStep ok s = s := by
    intro s ok h
    unfold installPatchStep
    simp [h]
  refine ⟨?_, hnoop, hset, fun s ok2 => hnoop _ ok2 (hset s), fun s eu ek => rfl⟩
  intro s d1 d2 ok1 ok2
  have hflag : (patchStep true d1 ok1 s).isPatchedFlag = true := by
    simp [patchStep_isPatchedFlag]
  rw [patchStep_installRuns]
  simp [hflag]

/-- C5 witness: after a successful install the next `installPatch` call
leaves the state unchanged, at a concrete state. -/
theorem install_idempotency_amended_witness :
    installPatchStep false (installPatchStep true (initState none none))
      = installPatchStep true (initState none none) :=
  install_idempotency_amended.2.2.2.1 (initState none none) false

/-- Exactly one of the response and error fields is present. -/
def exactlyOneOutcome (r : LLMCallData) : Bool :=
  r.response.isSome != r.error.isSome

/-- A record is well formed for transport: one of response/error, and a
non-negative latency already set. -/
def wellFormedSent (r : LLMCallData) : Bool :=
  exactlyOneOutcome r &&
    (match r.latency_s with
     | some q => decide (0 ≤ q)
     | none => false)

lemma latSec_nonneg {st et : Nat} (h : st ≤ et) : 0 ≤ latSec st et := by
  unfold latSec
  apply div_nonneg
  · simp only [sub_nonneg]
    exact_mod_cast h
  · norm_num

/-- C9: with a monotone clock (the second `Date.now()` reading is not
below the first), every record a completed wrapped call hands to `send`
carries exactly one of response/error and a latency that is set and
non-negative, on the success, streaming and failure paths of both
wrappers. -/
theorem sent_records_wellformed (mp : String) (arg0 : Value)
    (callResult : Except Value Value) (oracle : Nat → Except Value Value)
    (st et : Nat) (h : st ≤ et) :
    (wrapOpenAIMethod mp arg0 callResult oracle st et).sent.all wellFormedSent = true
    ∧ (wrapVercelAIMethod mp arg0 callResult oracle st et).sent.all wellFormedSent = true := by
  have hq : decide (0 ≤ latSec st et) = true := decide_eq_true (latSec_nonneg h)
  constructor
  · cases callResult with
    | ok result =>
      unfold wrapOpenAIMethod
      repeat' split
      all_goals simp [wellFormedSent, exactlyOneOutcome, hq]
    | error e =>
      unfold wrapOpenAIMethod
      repeat' split
      all_goals simp [wellFormedSent, exactlyOneOutcome, hq]
  · cases callResult with
    | ok result =>
      unfold wrapVercelAIMethod
      repeat' split
      all_goals simp [wellFormedSent, exactlyOneOutcome, hq]
    | error e =>
      unfold wrapVercelAIMethod
      repeat' split
      all_goals simp [wellFormedSent, exactlyOneOutcome, hq]

/-- C9 witness: concrete success calls through both wrappers. -/
theorem sent_records_wellformed_witness :
    (wrapOpenAIMethod "openai.chat.completions.create" (.vobj .nil)
      (.ok (.vstr "ok")) oracle0 0 5).sent.all wellFormedSent = true
    ∧ (wrapVercelAIMethod "ai.generateText" (.vobj .nil)
      (.ok (.vstr "ok")) oracle0 0 5).sent.all wellFormedSent = true :=
  sent_records_wellformed _ _ _ _ 0 5 (by decide)

/-- C3: a chat-completion call whose first argument has a truthy `stream`
field, and a generation call whose object result carries a truthy
`textStream` or `objectStream` handle, record the fixed streaming sentinel
string as the response and return the original result value to the caller
unchanged (the pure embedding returns the identical value: the logging
layer never consumes the stream). -/
theorem wrap_streaming_sentinel (mp : String) (arg0 result : Value)
    (oracle : Nat → Except Value Value) (st et : Nat) :
    (truthy (optChain arg0 "stream") = true →
      (wrapOpenAIMethod mp arg0 (.ok result) oracle st et).outcome = .ok result
      ∧ ∃ r, (wrapOpenAIMethod mp arg0 (.ok result) oracle st et).sent = [r]
          ∧ r.response = some (.vstr "streaming_response"))
    ∧ (isObjLike result = true →
       (truthy (getField result "textStream") || truthy (getField result "objectStream")) = true →
      (wrapVercelAIMethod mp arg0 (.ok result) oracle st et).outcome = .ok result
      ∧ ∃ r, (wrapVercelAIMethod mp arg0 (.ok result) oracle st et).sent = [r]
          ∧ r.response = some (.vstr "vercel_ai_streaming_response")) := by
  constructor
  · intro hs
    unfold wrapOpenAIMethod
    repeat' split
    all_goals first
      | exact ⟨rfl, _, rfl, rfl⟩
      | simp_all
  · intro ho hs
    unfold wrapVercelAIMethod
    repeat' split
    all_goals first
      | exact ⟨rfl, _, rfl, rfl⟩
      | simp_all

/-- C3 witness: a concrete `stream: true` chat call and a concrete
`textStream`-carrying generation result. -/
theorem wrap_streaming_sentinel_witness :
    ((wrapOpenAIMethod "openai.chat.completions.create"
        (.vobj (.cons "stream" (.vbool true) .nil)) (.ok (.vstr "S")) oracle0 0 1).outcome
      = .ok (.vstr "S")
     ∧ ∃ r, (wrapOpenAIMethod "openai.chat.completions.create"
        (.vobj (.cons "stream" (.vbool true) .nil)) (.ok (.vstr "S")) oracle0 0 1).sent = [r]
         ∧ r.response = some (.vstr "streaming_response"))
    ∧ ((wrapVercelAIMethod "ai.streamText" (.vobj .nil)
        (.ok (.vobj (.cons "textStream" (.vobj .nil) .nil))) oracle0 0 1).outcome
      = .ok (.vobj (.cons "textStream" (.vobj .nil) .nil))
     ∧ ∃ r, (wrapVercelAIMethod "ai.streamText" (.vobj .nil)
        (.ok (.vobj (.cons "textStream" (.vobj .nil) .nil))) oracle0 0 1).sent = [r]
         ∧ r.response = some (.vstr "vercel_ai_streaming_response")) :=
  ⟨(wrap_streaming_sentinel "openai.chat.completions.create"
      (.vobj (.cons "stream" (.vbool true) .nil)) (.vstr "S") oracle0 0 1).1 rfl,
   (wrap_streaming_sentinel "ai.streamText" (.vobj .nil)
      (.vobj (.cons "textStream" (.vobj .nil) .nil)) oracle0 0 1).2 rfl rfl⟩

/-- C1 counterexample: the underlying call rejects with the value `null`;
the wrapped call does rethrow `null`, but the record handed to `send`
carries the fixed string `Unknown error` rather than the string
representation `null` of the thrown value, because the source computes
`error?.toString()` coalesced with the fallback, and optional chaining on a nullish
error yields `undefined`. -/
theorem wrap_error_null_counterexample :
    ((wrapOpenAIMethod "openai.chat.completions.create" (.vobj .nil)
        (.error .vnull) oracle0 0 5).sent.map (fun r => r.error))
      = [some "Unknown error"]
    ∧ (wrapOpenAIMethod "openai.chat.completions.create" (.vobj .nil)
        (.error .vnull) oracle0 0 5).outcome = .error .vnull
    ∧ jsToString .vnull = "null"
    ∧ ("Unknown error" : String) ≠ "null" :=
  ⟨rfl, rfl, rfl, by decide⟩

/-- C1 amended: on a failing underlying call both wrappers rethrow the
identical error value and hand `send` a single record with no response and
with `error` equal to the coalesced `e?.toString()` — which equals the
string representation of `e` whenever `e` is not nullish and does not
stringify to the empty string, and is the fixed `Unknown error` string
otherwise. -/
theorem wrap_error_path_amended (mp : String) (arg0 e : Value)
    (oracle : Nat → Except Value Value) (st et : Nat) :
    ((wrapOpenAIMethod mp arg0 (.error e) oracle st et).outcome = .error e
     ∧ ∃ r, (wrapOpenAIMethod mp arg0 (.error e) oracle st et).sent = [r]
         ∧ r.error = some (recordedError e) ∧ r.response = none)
    ∧ ((wrapVercelAIMethod mp arg0 (.error e) oracle st et).outcome = .error e
     ∧ ∃ r, (wrapVercelAIMethod mp arg0 (.error e) oracle st et).sent = [r]
         ∧ r.error = some (recordedError e) ∧ r.response = none)
    ∧ (e ≠ .vnull → e ≠ .vundefined → jsToString e ≠ "" → recordedError e = jsToString e)
    ∧ recordedError .vnull = "Unknown error"
    ∧ recordedError .vundefined = "Unknown error" := by
  refine ⟨⟨rfl, ⟨_, rfl, rfl, rfl⟩⟩, ⟨rfl, ⟨_, rfl, rfl, rfl⟩⟩, ?_, rfl, rfl⟩
  intro h1 h2 h3
  cases e with
  | vnull => exact absurd rfl h1
  | vundefined => exact absurd rfl h2
  | vbool b => simp [recordedError, h3]
  | vnum n => simp [recordedError, h3]
  | vbigint n => simp [recordedError, h3]
  | vstr s => simp [recordedError, h3]
  | varr es => simp [recordedError, h3]
  | vobj fs => simp [recordedError, h3]
  | vfunc fid => simp [recordedError, h3]

/-- C1 witness: a thrown string representing a rate-limit error is recorded
verbatim, and the identical value is rethrown by a concrete wrapped call. -/
theorem wrap_error_path_amended_witness :
    recordedError (.vstr "rate limit exceeded") = jsToString (.vstr "rate limit exceeded")
    ∧ (wrapOpenAIMethod "openai.chat.completions.create" (.vobj .nil)
        (.error (.vstr "rate limit exceeded")) oracle0 0 1).outcome
      = .error (.vstr "rate limit exceeded") :=
  ⟨(wrap_error_path_amended "openai.chat.completions.create" (.vobj .nil)
      (.vstr "rate limit exceeded") oracle0 0 1).2.2.1
      (fun h => Value.noConfusion h) (fun h => Value.noConfusion h) (by decide),
   (wrap_error_path_amended "openai.chat.completions.create" (.vobj .nil)
      (.vstr "rate limit exceeded") oracle0 0 1).1.1⟩

/-- Structural induction for `FieldList` alone (the mutual recursor has
several motives, which the `induction` tactic does not accept). -/
def fieldListInd (P : FieldList → Prop) (hnil : P .nil)
    (hcons : ∀ k v tl, P tl → P (.cons k v tl)) : ∀ fs, P fs
  | .nil => hnil
  | .cons k v tl => hcons k v tl (fieldListInd P hnil hcons tl)

lemma lookupField_eq_none_of_not_mem (fs : FieldList) (k : String)
    (h : k ∉ keys fs) : lookupField fs k = none := by
  induction fs using fieldListInd with
  | hnil => rfl
  | hcons k2 v tl ih =>
    simp only [keys, List.mem_cons, not_or] at h
    unfold lookupField
    rw [if_neg (fun hh => h.1 hh.symm)]
    exact ih h.2

lemma jsonObjFields_keys_subset (fs fs2 : FieldList)
    (h : jsonObjFields fs = .ok fs2) : ∀ k, k ∈ keys fs2 → k ∈ keys fs := by
  induction fs using fieldListInd generalizing fs2 with
  | hnil =>
    intro k hk
    simp only [jsonObjFields] at h
    cases h
    simp [keys] at hk
  | hcons k2 v tl ih =>
    intro k hk
    unfold jsonObjFields at h
    by_cases hdrop : (isUndefined v || isFunc v) = true
    · rw [if_pos hdrop] at h
      exact List.mem_cons_of_mem k2 (ih fs2 h k hk)
    · rw [if_neg hdrop] at h
      cases hj : jsonRT v with
      | error e => rw [hj] at h; cases h
      | ok v2 =>
        rw [hj] at h
        cases hjt : jsonObjFields tl with
        | error e => rw [hjt] at h; cases h
        | ok tl2 =>
          rw [hjt] at h
          cases h
          simp only [keys, List.mem_cons] at hk ⊢
          rcases hk with hk | hk
          · exact Or.inl hk
          · exact Or.inr (ih tl2 hjt k hk)

lemma jsonObjFields_drops_funcs (fs fs2 : FieldList) (k : String) (fid : Nat)
    (hnd : (keys fs).Nodup) (hok : jsonObjFields fs = .ok fs2)
    (hl : lookupField fs k = some (.vfunc fid)) : lookupField fs2 k = none := by
  induction fs using fieldListInd generalizing fs2 with
  | hnil => cases hl
  | hcons k2 v tl ih =>
    simp only [keys, List.nodup_cons] at hnd
    by_cases hk : k2 = k
    · subst hk
      unfold lookupField at hl
      rw [if_pos rfl] at hl
      have hv : v = .vfunc fid := by injection hl
      subst hv
      unfold jsonObjFields at hok
      rw [if_pos (by simp [isUndefined, isFunc])] at hok
      apply lookupField_eq_none_of_not_mem
      intro hmem
      exact hnd.1 (jsonObjFields_keys_subset tl fs2 hok k2 hmem)
    · unfold lookupField at hl
      rw [if_neg hk] at hl
      unfold jsonObjFields at hok
      by_cases hdrop : (isUndefined v || isFunc v) = true
      · rw [if_pos hdrop] at hok
        exact ih fs2 hnd.2 hok hl
      · rw [if_neg hdrop] at hok
        cases hj : jsonRT v with
        | error e => rw [hj] at hok; cases hok
        | ok v2 =>
          rw [hj] at hok
          cases hjt : jsonObjFields tl with
          | error e => rw [hjt] at hok; cases hok
          | ok tl2 =>
            rw [hjt] at hok
            cases hok
            unfold lookupField
            rw [if_neg hk]
            exact ih tl2 hnd.2 hjt hl

/-- Oracle whose every call throws, used by concrete witnesses. -/
def oracleBoom : Nat → Except Value Value := fun _ => .error (.vstr "boom")

/-- C7: `serialize` never throws — when the attempted conversion succeeds
its value is returned, and when it throws (rejected member call, or a JSON
round-trip failure) the string representation of the input is returned
instead; the conversions are attempted in the order `toJSON()`, then
`serialize()`, then the JSON round-trip, the first applicable one being
used; and the structural copy drops function-valued members. -/
theorem serialize_contract (oracle : Nat → Except Value Value) (v : Value) :
    (∀ e, serializeExc oracle v = .error e → serialize oracle v = .vstr (jsToString v))
    ∧ (∀ r, serializeExc oracle v = .ok r → serialize oracle v = r)
    ∧ (∀ fid, isObjLike v = true → getField v "toJSON" = .vfunc fid →
        serializeExc oracle v = oracle fid)
    ∧ (∀ fid, isObjLike v = true → isFunc (getField v "toJSON") = false →
        getField v "serialize" = .vfunc fid → serializeExc oracle v = oracle fid)
    ∧ (isObjLike v = true → isFunc (getField v "toJSON") = false →
        isFunc (getField v "serialize") = false → serializeExc oracle v = jsonRT v)
    ∧ (isObjLike v = false → serializeExc oracle v = jsonRT v)
    ∧ (∀ fs fs2 k fid, (keys fs).Nodup → jsonObjFields fs = .ok fs2 →
        lookupField fs k = some (.vfunc fid) → lookupField fs2 k = none) := by
  refine ⟨?_, ?_, ?_, ?_, ?_, ?_,
    fun fs fs2 k fid hnd hok hl => jsonObjFields_drops_funcs fs fs2 k fid hnd hok hl⟩
  · intro e h
    unfold serialize
    rw [h]
  · intro r h
    unfold serialize
    rw [h]
  · intro fid ho ht
    unfold serializeExc
    rw [if_pos ho, ht]
    rfl
  · intro fid ho ht hs
    unfold serializeExc
    rw [if_pos ho, ht, if_neg Bool.false_ne_true, hs]
    rfl
  · intro ho ht hs
    unfold serializeExc
    rw [if_pos ho, ht, if_neg Bool.false_ne_true, hs, if_neg Bool.false_ne_true]
  · intro ho
    unfold serializeExc
    rw [if_neg (by simp [ho])]

/-- C7 witness: a throwing `toJSON` member degrades to the string
representation, and a well-behaved `toJSON` member is the conversion
used. -/
theorem serialize_contract_witness :
    serialize oracleBoom (.vobj (.cons "toJSON" (.vfunc 0) .nil)) = .vstr "[object Object]"
    ∧ serializeExc oracle0 (.vobj (.cons "toJSON" (.vfunc 0) .nil)) = oracle0 0 :=
  ⟨(serialize_contract oracleBoom (.vobj (.cons "toJSON" (.vfunc 0) .nil))).1
      (.vstr "boom") rfl,
   (serialize_contract oracle0 (.vobj (.cons "toJSON" (.vfunc 0) .nil))).2.2.1 0 rfl rfl⟩

lemma lookupField_appendField_of_none (fs : FieldList) (key : String) (v : Value)
    (k : String) (h : lookupField fs k = none) :
    lookupField (appendField fs key v) k = if key = k then some v else none := by
  induction fs using fieldListInd with
  | hnil => rfl
  | hcons k2 w tl ih =>
    unfold lookupField at h ⊢
    by_cases hk : k2 = k
    · rw [if_pos hk] at h
      cases h
    · rw [if_neg hk] at h
      unfold appendField
      show (if k2 = k then some w else lookupField (appendField tl key v) k) = _
      rw [if_neg hk]
      exact ih h

lemma lookupField_appendField_of_some (fs : FieldList) (key : String) (v : Value)
    (k : String) (w : Value) (h : lookupField fs k = some w) :
    lookupField (appendField fs key v) k = some w := by
  induction fs using fieldListInd with
  | hnil => cases h
  | hcons k2 w2 tl ih =>
    unfold lookupField at h
    unfold appendField
    show (if k2 = k then some w2 else lookupField (appendField tl key v) k) = _
    by_cases hk : k2 = k
    · rw [if_pos hk] at h ⊢
      exact h
    · rw [if_neg hk] at h ⊢
      exact ih h

lemma lookupField_eraseField_self (fs : FieldList) (k : String) :
    lookupField (eraseField fs k) k = none := by
  induction fs using fieldListInd with
  | hnil => rfl
  | hcons k2 v tl ih =>
    unfold eraseField
    by_cases hk : k2 = k
    · rw [if_pos hk]
      exact ih
    · rw [if_neg hk]
      unfold lookupField
      rw [if_neg hk]
      exact ih

lemma lookupField_eraseField_ne (fs : FieldList) (k k2 : String) (h : k2 ≠ k) :
    lookupField (eraseField fs k) k2 = lookupField fs k2 := by
  induction fs using fieldListInd with
  | hnil => rfl
  | hcons k3 v tl ih =>
    unfold eraseField
    by_cases hk : k3 = k
    · rw [if_pos hk, ih]
      show lookupField tl k2 = if k3 = k2 then some v else lookupField tl k2
      have hne : ¬ (k3 = k2) := fun hh => h (by rw [← hh]; exact hk)
      rw [if_neg hne]
    · rw [if_neg hk]
      show (if k3 = k2 then some v else lookupField (eraseField tl k) k2)
         = (if k3 = k2 then some v else lookupField tl k2)
      by_cases hk2 : k3 = k2
      · rw [if_pos hk2, if_pos hk2]
      · rw [if_neg hk2, if_neg hk2]
        exact ih

lemma lookupField_objSet_self (fs : FieldList) (k : String) (v : Value) :
    lookupField (objSet fs k v) k = some v := by
  unfold objSet
  rw [lookupField_appendField_of_none _ _ _ _ (lookupField_eraseField_self fs k)]
  rw [if_pos rfl]

lemma lookupField_objSet_ne (fs : FieldList) (k : String) (v : Value)
    (k2 : String) (h : k ≠ k2) :
    lookupField (objSet fs k v) k2 = lookupField fs k2 := by
  unfold objSet
  cases hcase : lookupField (eraseField fs k) k2 with
  | none =>
    rw [lookupField_appendField_of_none _ _ _ _ hcase, if_neg h]
    rw [lookupField_eraseField_ne fs k k2 (fun hh => h hh.symm)] at hcase
    exact hcase.symm
  | some w =>
    rw [lookupField_appendField_of_some _ _ _ _ _ hcase]
    rw [lookupField_eraseField_ne fs k k2 (fun hh => h hh.symm)] at hcase
    exact hcase.symm

lemma lookupField_objSetAll_not_mem (fs : FieldList) (acc : FieldList) (k : String)
    (h : k ∉ keys fs) : lookupField (objSetAll acc fs) k = lookupField acc k := by
  induction fs using fieldListInd generalizing acc with
  | hnil => rfl
  | hcons k2 v tl ih =>
    simp only [keys, List.mem_cons, not_or] at h
    unfold objSetAll
    rw [ih _ h.2]
    exact lookupField_objSet_ne acc k2 v k (fun hh => h.1 hh.symm)

lemma lookupField_objSetAll_mem (fs : FieldList) (acc : FieldList) (k : String)
    (v : Value) (hnd : (keys fs).Nodup) (h : lookupField fs k = some v) :
    lookupField (objSetAll acc fs) k = some v := by
  induction fs using fieldListInd generalizing acc with
  | hnil => cases h
  | hcons k2 v2 tl ih =>
    simp only [keys, List.nodup_cons] at hnd
    unfold lookupField at h
    unfold objSetAll
    by_cases hk : k2 = k
    · rw [if_pos hk] at h
      subst hk
      rw [lookupField_objSetAll_not_mem tl _ k2 hnd.1]
      rw [lookupField_objSet_self]
      exact h.symm ▸ rfl
    · rw [if_neg hk] at h
      exact ih _ hnd.2 h

/-- Lookup of a named field of a value (`none` on non-objects). -/
def vLookup (v : Value) (k : String) : Option Value :=
  match v with
  | .vobj fs => lookupField fs k
  | _ => none

lemma wrapVercel_sent_kwargs (mp : String) (arg0 : Value)
    (callResult : Except Value Value) (oracle : Nat → Except Value Value)
    (st et : Nat) :
    ∀ r ∈ (wrapVercelAIMethod mp arg0 callResult oracle st et).sent,
      r.request_kwargs
        = .vobj (vercelKwargsFields oracle (if truthy arg0 then arg0 else .vobj .nil)) := by
  intro r hr
  cases callResult with
  | ok result =>
    unfold wrapVercelAIMethod at hr
    revert hr
    repeat' split
    all_goals intro hr
    all_goals simp only [List.mem_singleton] at hr
    all_goals subst hr
    all_goals rfl
  | error e =>
    unfold wrapVercelAIMethod at hr
    revert hr
    repeat' split
    all_goals intro hr
    all_goals simp only [List.mem_singleton] at hr
    all_goals subst hr
    all_goals rfl

/-- C10: for a call through a function wrapped by `patchVercelAIFunctions`
(which delegates to `wrapVercelAIMethod`), every key of the raw parameter
object appears in the recorded `request.kwargs` with its raw value, because
the trailing spread `...params` is applied last; in particular a raw
`schema` or `tools` parameter overrides the placeholder strings. -/
theorem vercel_kwargs_raw_params (mp : String) (fields : FieldList)
    (callResult : Except Value Value) (oracle : Nat → Except Value Value)
    (st et : Nat) (k : String) (v : Value)
    (hnd : (keys fields).Nodup) (hl : lookupField fields k = some v) :
    ∀ r ∈ (wrapVercelAIMethod mp (.vobj fields) callResult oracle st et).sent,
      vLookup r.request_kwargs k = some v := by
  intro r hr
  rw [wrapVercel_sent_kwargs mp (.vobj fields) callResult oracle st et r hr]
  show lookupField (vercelKwargsFields oracle
    (if truthy (Value.vobj fields) then Value.vobj fields else .vobj .nil)) k = some v
  rw [show (if truthy (Value.vobj fields) then Value.vobj fields else .vobj .nil)
        = Value.vobj fields from rfl]
  unfold vercelKwargsFields
  exact lookupField_objSetAll_mem fields _ k v hnd hl

/-- C10 witness: a raw `schema` parameter value survives into the recorded
kwargs of a concrete wrapped generation call, instead of the placeholder. -/
theorem vercel_kwargs_raw_params_witness :
    vLookup (((wrapVercelAIMethod "ai.generateObject"
        (.vobj (.cons "schema" (.vnum 7) (.cons "prompt" (.vstr "hi") .nil)))
        (.ok (.vstr "ok")) oracle0 0 1).sent.headD
          { sdk_method := "", request_kwargs := .vundefined }).request_kwargs)
      "schema" = some (.vnum 7) :=
  vercel_kwargs_raw_params "ai.generateObject"
    (.cons "schema" (.vnum 7) (.cons "prompt" (.vstr "hi") .nil))
    (.ok (.vstr "ok")) oracle0 0 1 "schema" (.vnum 7) (by decide) rfl
    _ (List.Mem.head _)

end LLMWarehouse
